import Mathlib

/-!
Shallow embedding of the transaction normalization and reconciliation engine
of the capital-gains-calculator repository, together with proofs settling the
frozen claims C1-C10 about its specification.

Conventions of the embedding:
* Python `datetime.date` is modelled as an epoch-day number (`Date := ℤ`);
  `mkDate` converts a civil date (year, month, day) to its epoch-day number
  with the standard days-from-civil algorithm, so that subtracting
  `datetime.timedelta(days=i)` is subtraction on `Date`.
* Python `Decimal` is modelled as `ℚ` (the parsed decimals are exact
  rationals; division `amount / quantity` is exact at the precision used by
  the program's data).  `Decimal` construction failure (InvalidOperation)
  and DivisionByZero are modelled as explicit error values.
* Python `dict` is modelled as an association list with unique keys;
  `dlookup` is `dict.__getitem__`/`in`, `dsetFirst` is item assignment and
  `dictUpdate` is `dict.update` (existing keys updated in place, new keys
  appended), so Python's key-level precedence is preserved exactly.
* Python exceptions (`ParsingError`, `KeyError`, `AssertionError`,
  `UnexpectedRowCountError`, ...) are modelled by `Except PipelineError`.
* String helpers (`pySplitOn`, `pyReplace`, `strToNat`, `pyContainsSub`) are
  structural-recursion re-implementations of the Python/Lean-core string
  operations used by the source, so that all definitions evaluate inside
  the kernel.
* The `TICKER_RENAMES` table lives in `cgt_calc/const.py`, which is not part
  of the analysed sources; all definitions take the rename table as an
  explicit parameter `renames` and apply it exactly where the source calls
  `TICKER_RENAMES.get(symbol, symbol)`.
-/

namespace CGTCalc

/-! ### String utilities (structural re-implementations) -/

/-- Splitting worker over character lists: leftmost, non-overlapping matches
of `sep`, with `fuel` bounding the recursion (callers pass the list length,
which always suffices since `sep` is non-empty at every call site). -/
def splitAux (sep : List Char) : ℕ → List Char → List Char → List (List Char)
  | _, [], acc => [acc.reverse]
  | 0, s, acc => [acc.reverse ++ s]
  | fuel+1, c :: cs, acc =>
    if sep.isPrefixOf (c :: cs) then
      acc.reverse :: splitAux sep fuel ((c :: cs).drop sep.length) []
    else splitAux sep fuel cs (c :: acc)

/-- Model of `str.split(sep)` as used via `String.splitOn`: splits on the
leftmost non-overlapping occurrences of `sep`; an empty separator returns
the whole string, matching `String.splitOn`. -/
def pySplitOn (s sep : String) : List String :=
  if sep.data = [] then [s] else (splitAux sep.data s.data.length s.data []).map String.mk

/-- Replacement worker over character lists: replaces leftmost,
non-overlapping occurrences of `pat` by `repl`. -/
def replaceAux (pat repl : List Char) : ℕ → List Char → List Char
  | _, [] => []
  | 0, s => s
  | fuel+1, c :: cs =>
    if pat.isPrefixOf (c :: cs) then
      repl ++ replaceAux pat repl fuel ((c :: cs).drop pat.length)
    else c :: replaceAux pat repl fuel cs

/-- Model of Python `str.replace(pat, repl)` for non-empty `pat` (every call
site passes a non-empty pattern). -/
def pyReplace (s pat repl : String) : String :=
  if pat.data = [] then s else String.mk (replaceAux pat.data repl.data s.data.length s.data)

/-- Decide whether `c` is an ASCII digit. -/
def isDigitChar (c : Char) : Bool := decide (48 ≤ c.toNat) && decide (c.toNat ≤ 57)

/-- Accumulating decimal-digit reader. -/
def digitsToNatGo : List Char → ℕ → Option ℕ
  | [], acc => some acc
  | c :: cs, acc => if isDigitChar c then digitsToNatGo cs (acc * 10 + (c.toNat - 48)) else none

/-- Model of `String.toNat?`: `some` exactly on non-empty all-digit strings. -/
def strToNat (s : String) : Option ℕ :=
  if s.data = [] then none else digitsToNatGo s.data 0

/-- Model of the Python substring test `needle in hay` (an empty needle is
always contained). -/
def pyContainsSub (hay needle : String) : Bool :=
  needle.data = [] || (pySplitOn hay needle).length > 1

/-- Join a list of strings with a separator, as `sep.join(parts)` does. -/
def joinWith (sep : String) : List String → String
  | [] => ""
  | [a] => a
  | a :: b :: rest => String.mk (a.data ++ sep.data ++ (joinWith sep (b :: rest)).data)

/-- Model of `list.startswith`-style prefix tests done with `re.match("^...")`
or string slicing in the source. -/
def strStarts (s pre : String) : Bool := pre.data.isPrefixOf s.data

/-! ### Calendar -/

/-- Dates are epoch-day numbers; `datetime.date` arithmetic with
`timedelta(days=i)` becomes integer subtraction. -/
abbrev Date := ℤ

/-- Gregorian leap-year test, as `datetime` validates dates. -/
def isLeap (y : ℕ) : Bool := (y % 4 = 0 && y % 100 ≠ 0) || y % 400 = 0

/-- Number of days of month `m` in year `y`. -/
def daysInMonth (y m : ℕ) : ℕ :=
  if m = 2 then (if isLeap y then 29 else 28)
  else if m = 4 ∨ m = 6 ∨ m = 9 ∨ m = 11 then 30 else 31

/-- Days-from-civil conversion: epoch-day number of the civil date
`y-m-d` (1970-01-01 is day 0). -/
def mkDate (y m d : ℕ) : Date :=
  let yy : ℕ := if m ≤ 2 then y - 1 else y
  let era : ℕ := yy / 400
  let yoe : ℕ := yy - era * 400
  let mp : ℕ := if 2 < m then m - 3 else m + 9
  let doy : ℕ := (153 * mp + 2) / 5 + d - 1
  let doe : ℕ := yoe * 365 + yoe / 4 - yoe / 100 + doy
  (era * 146097 + doe : ℤ) - 719468

/-- Shared field validation of `datetime.strptime` for a (year, month, day)
triple of digit groups: the year group has exactly four digits, month and
day have one or two, and the triple is a valid calendar date. -/
def parseDateParts (ys ms ds : String) : Option Date :=
  if ys.data.length = 4 ∧ 1 ≤ ms.data.length ∧ ms.data.length ≤ 2
      ∧ 1 ≤ ds.data.length ∧ ds.data.length ≤ 2 then
    match strToNat ys, strToNat ms, strToNat ds with
    | some y, some m, some d =>
      if 1 ≤ y ∧ 1 ≤ m ∧ m ≤ 12 ∧ 1 ≤ d ∧ d ≤ daysInMonth y m then
        some (mkDate y m d)
      else none
    | _, _, _ => none
  else none

/-- Model of `datetime.strptime(s, "%m/%d/%Y").date()`. -/
def parseMDY (s : String) : Option Date :=
  match pySplitOn s "/" with
  | [ms, ds, ys] => parseDateParts ys ms ds
  | _ => none

/-- Model of `datetime.strptime(s, "%Y/%m/%d").date()`. -/
def parseYMD (s : String) : Option Date :=
  match pySplitOn s "/" with
  | [ys, ms, ds] => parseDateParts ys ms ds
  | _ => none

/-- Model of `datetime.strptime(s, "%d/%m/%Y").date()` (Vanguard dates). -/
def parseDMY (s : String) : Option Date :=
  match pySplitOn s "/" with
  | [ds, ms, ys] => parseDateParts ys ms ds
  | _ => none

/-! ### Decimals -/

/-- Model of `Decimal(s)` construction on the plain (non-scientific) decimal
strings the data uses: optional sign, integer digits, optional fraction
digits (at least one digit overall); `none` models `InvalidOperation`. -/
def parseDecimal (s : String) : Option ℚ :=
  let neg : Bool := strStarts s "-"
  let body : String :=
    if strStarts s "-" ∨ strStarts s "+" then String.mk (s.data.drop 1) else s
  match pySplitOn body "." with
  | [ip] =>
    match strToNat ip with
    | some n => some (if neg then -(n : ℚ) else (n : ℚ))
    | none => none
  | [ip, fp] =>
    if ip.data = [] ∧ fp.data = [] then none
    else
      let ipv : Option ℕ := if ip.data = [] then some 0 else strToNat ip
      let fpv : Option ℕ := if fp.data = [] then some 0 else strToNat fp
      match ipv, fpv with
      | some a, some b =>
        let q : ℚ := (a : ℚ) + (b : ℚ) / ((10 : ℚ) ^ fp.data.length)
        some (if neg then -q else q)
      | _, _ => none
  | _ => none

/-! ### Association lists as Python dicts -/

/-- Model of `d[k]` / `k in d`: first matching key wins (keys are unique in
every dict the program builds). -/
def dlookup {K V : Type} [DecidableEq K] : List (K × V) → K → Option V
  | [], _ => none
  | (k, v) :: rest, k0 => if k = k0 then some v else dlookup rest k0

/-- Model of `d[k] = v`: update the first binding of `k` in place, or append
a new binding, preserving insertion order as Python dicts do. -/
def dsetFirst {K V : Type} [DecidableEq K] : List (K × V) → K → V → List (K × V)
  | [], k, v => [(k, v)]
  | (k1, v1) :: rest, k, v =>
    if k1 = k then (k, v) :: rest else (k1, v1) :: dsetFirst rest k v

/-- Model of `d.update(other)`: bindings whose key occurs in `other` are
overwritten in place; keys unique to `other` are appended in order. -/
def dictUpdate {K V : Type} [DecidableEq K] (m o : List (K × V)) : List (K × V) :=
  m.map (fun kv => match dlookup o kv.1 with | some v => (kv.1, v) | none => kv)
    ++ o.filter (fun kv => (dlookup m kv.1).isNone)

/-! ### Canonical transaction model (`cgt_calc/model.py` shape) -/

/-- Closed action taxonomy of the canonical transaction model. -/
inductive ActionType where
  | buy | sell | transfer | stock_activity | dividend | tax | fee | adjustment
  | capital_gain | spin_off | interest | reinvest_shares | reinvest_dividends
  | wire_funds_received | stock_split | cash_merger
deriving DecidableEq, Repr

/-- Canonical transaction record all sources convert into. -/
structure BrokerTransaction where
  date : Date
  action : ActionType
  symbol : Option String
  description : String
  quantity : Option ℚ
  price : Option ℚ
  fees : ℚ
  amount : Option ℚ
  currency : String
  broker : String
deriving DecidableEq, Repr

/-- Schwab transaction: the canonical record plus the raw action label kept
by `SchwabTransaction.__init__` for the cash-merger pass. -/
structure SchwabTransaction extends BrokerTransaction where
  raw_action : String
deriving DecidableEq, Repr

/-- Decidable equality of `Except` results, used to evaluate the embedded
functions on concrete inputs. -/
instance exceptDecEq {ε α : Type} [DecidableEq ε] [DecidableEq α] :
    DecidableEq (Except ε α) := fun x y =>
  match x, y with
  | .error a, .error b =>
    if h : a = b then .isTrue (by rw [h]) else
      .isFalse (fun hc => h (Except.error.inj hc))
  | .ok a, .ok b =>
    if h : a = b then .isTrue (by rw [h]) else
      .isFalse (fun hc => h (Except.ok.inj hc))
  | .error a, .ok b => .isFalse (fun hc => Except.noConfusion hc)
  | .ok a, .error b => .isFalse (fun hc => Except.noConfusion hc)

/-- Failure modes of the embedded pipeline, mirroring the Python exceptions
raised by the source. -/
inductive PipelineError where
  | assertionError
  | divisionByZero
  | keyError (key : String)
  | rowCountError
  | columnCountError
  | parsingError (context : String) (message : String)
  | invalidDate (dateStr : String) (row : List (String × String))
  | invalidDecimal (s : String)
  | valueError (message : String)
  | indexError
  | noSuchGroup
deriving DecidableEq, Repr

/-! ### Award Price Resolver (`cgt_calc/parsers/schwab_util.py`) -/

/-- Mapping from date to (mapping from symbol to price); the
`AwardPrices` dataclass. -/
structure AwardPrices where
  award_prices : List (Date × List (String × ℚ))
deriving DecidableEq, Repr

/-- Lookup of `self.award_prices[date][symbol]` guarded by the two `in`
tests of `AwardPrices.get`. -/
def AwardPrices.priceAt (t : AwardPrices) (d : Date) (s : String) : Option ℚ :=
  match dlookup t.award_prices d with
  | none => none
  | some m => dlookup m s

/-- Apply `TICKER_RENAMES.get(symbol, symbol)`. -/
def renameGet (renames : List (String × String)) (s : String) : String :=
  (dlookup renames s).getD s

/-- Embedding of `AwardPrices.get`: rename the symbol, then scan the dates
`date`, `date - 1`, ..., `date - 6` in order and return the first hit;
raise `KeyError` when the whole window misses. -/
def AwardPrices.get (renames : List (String × String)) (t : AwardPrices)
    (date : Date) (symbol : String) : Except PipelineError (Date × ℚ) :=
  let sym := renameGet renames symbol
  match (List.range 7).findSome?
      (fun i => (t.priceAt (date - (i : ℤ)) sym).map (fun p => (date - (i : ℤ), p))) with
  | some r => .ok r
  | none => .error (.keyError sym)

/-- Embedding of `AwardPrices.merge`: `self.award_prices.copy()` followed by
`update(other.award_prices)` — a date-level dict update. -/
def AwardPrices.merge (t other : AwardPrices) : AwardPrices :=
  ⟨dictUpdate t.award_prices other.award_prices⟩

/-! ### Schwab transactions file (`cgt_calc/parsers/schwab.py`) -/

/-- Embedding of `action_from_str`.  Note that the source tests
`label in "Stock Plan Activity"`, a Python substring test, transcribed
faithfully via `pyContainsSub`. -/
def actionFromStr (label : String) : Except PipelineError ActionType :=
  if label = "Buy" then .ok .buy
  else if label = "Sell" then .ok .sell
  else if label ∈ ["MoneyLink Transfer", "Misc Cash Entry", "Service Fee",
      "Wire Funds", "Wire Sent", "Funds Received", "Journal", "Cash In Lieu",
      "Visa Purchase", "MoneyLink Deposit", "MoneyLink Adj"] then .ok .transfer
  else if pyContainsSub "Stock Plan Activity" label then .ok .stock_activity
  else if label ∈ ["Qualified Dividend", "Cash Dividend", "Qual Div Reinvest",
      "Div Adjustment", "Special Qual Div", "Non-Qualified Div"] then .ok .dividend
  else if label ∈ ["NRA Tax Adj", "NRA Withholding", "Foreign Tax Paid"] then .ok .tax
  else if label = "ADR Mgmt Fee" then .ok .fee
  else if label ∈ ["Adjustment", "IRS Withhold Adj", "Wire Funds Adj"] then .ok .adjustment
  else if label ∈ ["Short Term Cap Gain", "Long Term Cap Gain"] then .ok .capital_gain
  else if label = "Spin-off" then .ok .spin_off
  else if label = "Credit Interest" then .ok .interest
  else if label = "Reinvest Shares" then .ok .reinvest_shares
  else if label = "Reinvest Dividend" then .ok .reinvest_dividends
  else if label = "Wire Funds Received" then .ok .wire_funds_received
  else if label = "Stock Split" then .ok .stock_split
  else if label ∈ ["Cash Merger", "Cash Merger Adj"] then .ok .cash_merger
  else .error (.parsingError "schwab transactions" "Unknown action")

/-- Model of `row_dict[header]`: a missing header key raises `KeyError`. -/
def getCell (row : List (String × String)) (h : String) : Except PipelineError String :=
  match dlookup row h with
  | some v => .ok v
  | none => .error (.keyError h)

/-- Embedding of the " as of " handling of `SchwabTransaction.__init__`:
when the Date cell contains " as of ", the date string is the portion after
the first occurrence (`find` + slice, rendered as split/rejoin); otherwise
it is the whole cell. -/
def asOfDateStr (cell : String) : String :=
  if pyContainsSub cell " as of " then joinWith " as of " (pySplitOn cell " as of ").tail
  else cell

/-- Parse an optional decimal cell: the empty cell is `None`; otherwise the
`strip` substring is removed and `Decimal` construction must succeed. -/
def parseCellDecimal (cell : String) (strip : String) : Except PipelineError (Option ℚ) :=
  if cell = "" then .ok none
  else match parseDecimal (pyReplace cell strip "") with
    | some q => .ok (some q)
    | none => .error (.invalidDecimal (pyReplace cell strip ""))

/-- Parse a decimal cell defaulting to zero on the empty cell (the fees
column). -/
def parseCellDecimalD (cell : String) (strip : String) : Except PipelineError ℚ :=
  if cell = "" then .ok 0
  else match parseDecimal (pyReplace cell strip "") with
    | some q => .ok q
    | none => .error (.invalidDecimal (pyReplace cell strip ""))

/-- Embedding of `SchwabTransaction.__init__` on a CSV row given as the
header-to-cell association (`OrderedDict(zip(headers, row))`). -/
def SchwabTransaction.ofRow (renames : List (String × String))
    (row : List (String × String)) (file : String) :
    Except PipelineError SchwabTransaction := do
  if row.length < 8 ∨ 9 < row.length then throw .columnCountError
  if row.length = 9 ∧ (row.map Prod.snd).getLast? ≠ some "" then
    throw (.parsingError file "Column 9 should be empty")
  let dateCell ← getCell row "Date"
  let dateStr := asOfDateStr dateCell
  let date ← match parseMDY dateStr with
    | some d => pure d
    | none => throw (.invalidDate dateStr row)
  let rawAction ← getCell row "Action"
  let action ← actionFromStr rawAction
  let symbolCell ← getCell row "Symbol"
  let symbol : Option String :=
    if symbolCell = "" then none else some (renameGet renames symbolCell)
  let description ← getCell row "Description"
  let priceCell ← getCell row "Price"
  let price ← parseCellDecimal priceCell "$"
  let quantityCell ← getCell row "Quantity"
  let quantity ← parseCellDecimal quantityCell ","
  let feesCell ← getCell row "Fees & Comm"
  let fees ← parseCellDecimalD feesCell "$"
  let amountCell ← getCell row "Amount"
  let amount ← parseCellDecimal amountCell "$"
  pure ⟨⟨date, action, symbol, description, quantity, price, fees, amount,
    "USD", "Charles Schwab"⟩, rawAction⟩

/-! ### Corporate-Action Unifier (`_unify_schwab_cash_merger_trxs`) -/

/-- One loop iteration of `_unify_schwab_cash_merger_trxs`; the buffer is
kept most-recent-first, so `filtered[-1]` is the head.  A "Cash Merger Adj"
row must fold into the buffered primary; the sequence of `assert`
statements is modelled by `assertionError`, and the `Decimal` division
`amount / quantity` by an explicit `divisionByZero` guard. -/
def unifyStep (filtered : List SchwabTransaction) (t : SchwabTransaction) :
    Except PipelineError (List SchwabTransaction) :=
  if t.raw_action = "Cash Merger Adj" then
    match filtered with
    | [] => .error .assertionError
    | prev :: rest =>
      match prev.amount, t.quantity with
      | some amt, some q =>
        if prev.raw_action = "Cash Merger" ∧ prev.description = t.description
            ∧ prev.symbol = t.symbol ∧ prev.date = t.date
            ∧ prev.quantity = none ∧ prev.price = none ∧ t.amount = none then
          if -1 * q = 0 then .error .divisionByZero
          else .ok (
            { prev with
                quantity := some (-1 * q),
                price := some (amt / (-1 * q)),
                fees := prev.fees + t.fees } :: rest)
        else .error .assertionError
      | _, _ => .error .assertionError
  else .ok (t :: filtered)

/-- Left-to-right driver of the unifier loop. -/
def unifyGo : List SchwabTransaction → List SchwabTransaction →
    Except PipelineError (List SchwabTransaction)
  | [], acc => .ok acc.reverse
  | t :: rest, acc =>
    match unifyStep acc t with
    | .ok acc2 => unifyGo rest acc2
    | .error e => .error e

/-- Embedding of `_unify_schwab_cash_merger_trxs`. -/
def unifySchwabCashMergerTrxs (ts : List SchwabTransaction) :
    Except PipelineError (List SchwabTransaction) :=
  unifyGo ts []

/-! ### Awards ingestion (`_read_schwab_awards`) -/

/-- Positional pairing `zip(lines[::2], lines[1::2])` of an even-length
list: first row with second, third with fourth, and so on. -/
def pairUp {α : Type} : List α → List (α × α)
  | a :: b :: rest => (a, b) :: pairUp rest
  | _ => []

/-- Column-pair concatenation of `_read_schwab_awards`: for each zipped
column pair, `assert upper_col == "" or lower_col == ""` and append
`upper_col + lower_col`. -/
def combineCols : List (String × String) → Except PipelineError (List String)
  | [] => .ok []
  | (u, l) :: rest =>
    if u = "" ∨ l = "" then
      (combineCols rest).map (fun r => String.mk (u.data ++ l.data) :: r)
    else .error .assertionError

/-- Processing of one paired physical row of the awards file: combine the
two rows, check the column count, parse the date (first `%Y/%m/%d`, then
`%m/%d/%Y`), and record the `(date, symbol, price)` triple unless the
symbol or price cell is empty. -/
def processPair (renames : List (String × String)) (headers : List String)
    (acc : List (Date × List (String × ℚ))) (pr : List String × List String) :
    Except PipelineError (List (Date × List (String × ℚ))) := do
  let row ← combineCols (pr.1.zip pr.2)
  if row.length ≠ headers.length then throw .columnCountError
  let row_dict := headers.zip row
  let dateStr ← getCell row_dict "Date"
  let date ← match parseYMD dateStr with
    | some d => pure d
    | none => match parseMDY dateStr with
      | some d => pure d
      | none => throw (.valueError dateStr)
  let symbolCell ← getCell row_dict "Symbol"
  let priceCell ← getCell row_dict "FairMarketValuePrice"
  let price ← if priceCell = "" then pure (none : Option ℚ)
    else match parseDecimal (pyReplace priceCell "$" "") with
      | some p => pure (some p)
      | none => throw (.invalidDecimal priceCell)
  match (if symbolCell = "" then none else some symbolCell), price with
  | some s, some p =>
    pure (dsetFirst acc date
      (dsetFirst ((dlookup acc date).getD []) (renameGet renames s) p))
  | _, _ => pure acc

/-- Embedding of `_read_schwab_awards` on the data rows (header already
removed and validated): odd row counts fail with the row-count error, and
the surviving rows are folded pairwise into the price table. -/
def readSchwabAwards (renames : List (String × String)) (headers : List String)
    (lines : List (List String)) : Except PipelineError AwardPrices :=
  if lines.length % 2 ≠ 0 then .error .rowCountError
  else ((pairUp lines).foldlM (processPair renames headers) []).map AwardPrices.mk

/-! ### Multi-Source Reconciler (`read_schwab_combined_transactions`) -/

/-- Date comparison used by `sorted(..., key=lambda k: k.date)`. -/
def dateLE (a b : SchwabTransaction) : Bool := decide (a.date ≤ b.date)

/-- Embedding of the reconciliation step of
`read_schwab_combined_transactions` (lines 443-456): when the equity-award
source contributed transactions, drop every lower-precision transaction
whose `(date, symbol)` pair occurs in the equity-award source, concatenate
and stable-sort by date; otherwise return the lower-precision transactions
unchanged. -/
def readSchwabCombined (equity_transactions transactions : List SchwabTransaction) :
    List SchwabTransaction :=
  if equity_transactions.isEmpty then transactions
  else
    let equity_awards_sym_dates := equity_transactions.map (fun t => (t.date, t.symbol))
    let clean_transactions := transactions.filter
      (fun t => decide ((t.date, t.symbol) ∉ equity_awards_sym_dates))
    (equity_transactions ++ clean_transactions).mergeSort dateLE

/-! ### Vanguard reader (`cgt_calc/parsers/vanguard.py`) -/

/-- Embedding of `parse_decimal`: strip comma thousand separators and
construct a `Decimal`, failing with `ValueError` on bad input. -/
def vanguardDecimal (val : String) : Except PipelineError ℚ :=
  match parseDecimal (pyReplace val "," "") with
  | some q => .ok q
  | none => .error (.valueError "Bad decimal")

/-- Matcher for `re.match(r"^(?:Bought|Sold) ([\d\.]+) ", details)`,
returning the captured digits-and-dots group.  The greedy character class
cannot backtrack here because the character after a shorter match would
still belong to the class, so maximal-munch plus a following-space test is
exact. -/
def matchQtyGroup (details : String) : Option String :=
  let rest? : Option (List Char) :=
    if strStarts details "Bought " then some (details.data.drop 7)
    else if strStarts details "Sold " then some (details.data.drop 5)
    else none
  match rest? with
  | none => none
  | some rest =>
    let cls : Char → Bool := fun c => isDigitChar c || c = '.'
    let taken := rest.takeWhile cls
    let after := rest.dropWhile cls
    if taken ≠ [] ∧ after.head? = some ' ' then some (String.mk taken) else none

/-- Matcher for `re.match(r"^.+ \([:alnum:]+\)$", name)`: the name ends in
`)`; before it, a non-empty run of characters from the (literal) class
`:alnum` preceded by `" ("`, with a non-empty prefix.  The class cannot
contain `(` or `)`, so the relevant separator is the last `" ("`. -/
def symbolRegexMatches (name : String) : Bool :=
  match name.data.getLast? with
  | some c =>
    if c = ')' then
      let inner := name.data.dropLast
      let parts := splitAux [' ', '('] inner.length inner []
      match parts.getLast? with
      | some b =>
        decide (2 ≤ parts.length)
          && !b.isEmpty
          && b.all (fun ch => ch ∈ [':', 'a', 'l', 'n', 'u', 'm'])
          && (decide (3 ≤ parts.length) || !(parts.headI.isEmpty))
      | none => false
    else false
  | none => false

/-- Embedding of one iteration of the `parse_investment_transactions` row
loop; `none` is the `continue` branch for unrecognized transaction details.
The buggy `symbol_m.group(1)` call of the source (its regex has no capture
group) is modelled as the `noSuchGroup` error it would raise on a match. -/
def parseInvRow (headers : List String) (row : List String) :
    Except PipelineError (Option BrokerTransaction) := do
  let row_dict := headers.zip row
  let dateCell ← getCell row_dict "Date"
  let date ← match parseDMY dateCell with
    | some d => pure d
    | none => throw (.valueError "time data does not match format")
  let name ← getCell row_dict "InvestmentName"
  let details ← getCell row_dict "TransactionDetails"
  let costCell ← getCell row_dict "Cost"
  let amount ← vanguardDecimal costCell
  if symbolRegexMatches name then throw .noSuchGroup
  let symbol := name
  let quantity ← match matchQtyGroup details with
    | some g => vanguardDecimal g
    | none => do
        let qCell ← getCell row_dict "Quantity"
        vanguardDecimal qCell
  let priceCell ← getCell row_dict "Price"
  let price ← vanguardDecimal priceCell
  if strStarts details "Sold " then
    pure (some
      { date := date, action := .sell, symbol := some symbol,
        description := details, quantity := some |quantity|, price := some price,
        fees := 0, amount := some (-amount), currency := "GBP", broker := "Vanguard" })
  else if strStarts details "Bought " then
    pure (some
      { date := date, action := .buy, symbol := some symbol,
        description := details, quantity := some |quantity|, price := some price,
        fees := 0, amount := some (-amount), currency := "GBP", broker := "Vanguard" })
  else pure none

/-- Embedding of the `parse_investment_transactions` row loop (headers
already validated): rows are processed in order until exhaustion or a row
whose first cell is "Cost"; an empty row raises `IndexError` at `row[0]`. -/
def parseInvestmentRows (headers : List String) :
    List (List String) → Except PipelineError (List BrokerTransaction)
  | [] => .ok []
  | row :: rest =>
    match row.head? with
    | none => .error .indexError
    | some c0 =>
      if c0 = "Cost" then .ok []
      else do
        let tx? ← parseInvRow headers row
        let txs ← parseInvestmentRows headers rest
        pure (match tx? with | some t => t :: txs | none => txs)

/-! ### Predicates and sample data used by the claim theorems -/

/-- Conjunction of the pairing facts asserted by
`_unify_schwab_cash_merger_trxs` about a buffered primary `p` and an
adjustment row `a`: matching raw action, description, symbol and date; the
primary has no quantity and no price but has an amount; the adjustment has
no amount but has a quantity. -/
def CMMatches (p a : SchwabTransaction) : Prop :=
  p.raw_action = "Cash Merger" ∧ p.description = a.description ∧ p.symbol = a.symbol
    ∧ p.date = a.date ∧ p.quantity = none ∧ p.price = none ∧ p.amount ≠ none
    ∧ a.amount = none ∧ a.quantity ≠ none

instance (p a : SchwabTransaction) : Decidable (CMMatches p a) := by
  unfold CMMatches
  infer_instance

/-- Well-formedness of the tail of a raw sequence relative to the
transaction preceding it (`none` at the start): every "Cash Merger Adj" row
is immediately preceded by a matching primary. -/
def wfFromB : Option SchwabTransaction → List SchwabTransaction → Bool
  | _, [] => true
  | prev, t :: rest =>
    (if t.raw_action = "Cash Merger Adj" then
      (match prev with
       | some p => decide (CMMatches p t)
       | none => false)
     else true) && wfFromB (some t) rest

/-- The precondition of claim C8: every cash-merger adjustment row
immediately follows a matching primary row. -/
def cashMergerWellFormed (ts : List SchwabTransaction) : Bool := wfFromB none ts

/-- No adjustment row carries a zero quantity (zero quantities make the
source raise `DivisionByZero` instead of an `AssertionError`). -/
def noZeroAdjQty (ts : List SchwabTransaction) : Bool :=
  ts.all (fun t => !(decide (t.raw_action = "Cash Merger Adj")
    && decide (t.quantity = some (0 : ℚ))))

/-- A sequence without any cash-merger adjustment row. -/
def noCMAdj (ts : List SchwabTransaction) : Bool :=
  ts.all (fun t => !decide (t.raw_action = "Cash Merger Adj"))

/-- Sign convention of the raw Schwab export: quantities are non-negative
except on "Cash Merger Adj" rows, which report a non-positive share
count. -/
def quantitySignOK (t : SchwabTransaction) : Bool :=
  match t.quantity with
  | none => true
  | some q =>
    if t.raw_action = "Cash Merger Adj" then decide (q ≤ 0) else decide (0 ≤ q)

/-- Sample cash-merger primary row: amount 1000, no quantity, no price. -/
def cmPrimarySample : SchwabTransaction :=
  ⟨⟨mkDate 2022 1 10, .cash_merger, some "ABC", "CASH MERGER XYZ", none, none, 0,
    some 1000, "USD", "Charles Schwab"⟩, "Cash Merger"⟩

/-- Sample cash-merger adjustment row: quantity -40, no amount. -/
def cmAdjSample : SchwabTransaction :=
  ⟨⟨mkDate 2022 1 10, .cash_merger, some "ABC", "CASH MERGER XYZ", some (-40), none, 0,
    none, "USD", "Charles Schwab"⟩, "Cash Merger Adj"⟩

/-- Sample higher-precision equity-award vest at (2022-04-25, GOOG). -/
def vestSample : SchwabTransaction :=
  ⟨⟨mkDate 2022 4 25, .stock_activity, some "GOOG", "RS", some 55, some 100, 0,
    none, "USD", "Charles Schwab"⟩, "Stock Plan Activity"⟩

/-- Sample lower-precision SELL at the same (2022-04-25, GOOG) pair. -/
def sellSample : SchwabTransaction :=
  ⟨⟨mkDate 2022 4 25, .sell, some "GOOG", "GOOGLE", some 10, some 95, 0,
    some 950, "USD", "Charles Schwab"⟩, "Sell"⟩

/-- Sample equity-award transaction dated 2022-06-10. -/
def equityJunSample : SchwabTransaction :=
  ⟨⟨mkDate 2022 6 10, .stock_activity, some "GOOG", "RS", some 5, some 100, 0,
    none, "USD", "Charles Schwab"⟩, "Stock Plan Activity"⟩

/-- Sample equity-award transaction dated 2022-04-25. -/
def equityAprSample : SchwabTransaction :=
  ⟨⟨mkDate 2022 4 25, .stock_activity, some "GOOG", "RS", some 7, some 90, 0,
    none, "USD", "Charles Schwab"⟩, "Stock Plan Activity"⟩

/-- Sample lower-precision transaction dated 2022-10-25. -/
def lowerOctSample : SchwabTransaction :=
  ⟨⟨mkDate 2022 10 25, .sell, some "MSFT", "MICROSOFT", some 3, some 200, 0,
    some 600, "USD", "Charles Schwab"⟩, "Sell"⟩

/-- Sample raw Schwab CSV row of a Sell with a negative quantity cell. -/
def schwabSellRowSample : List (String × String) :=
  [("Date", "01/02/2024"), ("Action", "Sell"), ("Symbol", "GOOG"),
    ("Description", "GOOGLE"), ("Price", "10"), ("Quantity", "-5"),
    ("Fees & Comm", ""), ("Amount", "50")]

/-- Header row of the Vanguard investment-transactions section. -/
def vanHeadersSample : List String :=
  ["Date", "InvestmentName", "TransactionDetails", "Quantity", "Price", "Cost"]

/-- Sample Vanguard investment row (a sale of 2 units). -/
def vanRowSample : List String :=
  ["01/02/2024", "FundX", "Sold 2 units of FundX", "2", "10", "25"]

/-- Canonical transaction produced from `vanRowSample`. -/
def vanTxSample : BrokerTransaction :=
  { date := mkDate 2024 2 1, action := .sell, symbol := some "FundX",
    description := "Sold 2 units of FundX", quantity := some 2, price := some 10,
    fees := 0, amount := some (-25), currency := "GBP", broker := "Vanguard" }

/-- Header row of the Schwab awards export. -/
def awardHeadersSample : List String := ["Date", "Symbol", "FairMarketValuePrice"]

/-- Sample Schwab CSV row whose Date cell carries an " as of " date. -/
def asOfRowSample : List (String × String) :=
  [("Date", "05/15/2023 as of 05/12/2023"), ("Action", "Credit Interest"),
    ("Symbol", ""), ("Description", "INTEREST"), ("Price", ""), ("Quantity", ""),
    ("Fees & Comm", ""), ("Amount", "1")]

/-- Transaction parsed from `asOfRowSample`: dated by the as-of date. -/
def asOfTxSample : SchwabTransaction :=
  ⟨{ date := mkDate 2023 5 12, action := .interest, symbol := none,
     description := "INTEREST", quantity := none, price := none, fees := 0,
     amount := some 1, currency := "USD", broker := "Charles Schwab" },
    "Credit Interest"⟩

/-- Sample Schwab CSV row whose as-of remainder is unparseable. -/
def asOfBadRowSample : List (String × String) :=
  [("Date", "05/15/2023 as of garbage"), ("Action", "Credit Interest"),
    ("Symbol", ""), ("Description", "INTEREST"), ("Price", ""), ("Quantity", ""),
    ("Fees & Comm", ""), ("Amount", "1")]

/-! ### Dictionary lemmas -/

theorem dlookup_append {K V : Type} [DecidableEq K] (l1 l2 : List (K × V)) (k : K) :
    dlookup (l1 ++ l2) k = (dlookup l1 k).or (dlookup l2 k) := by
  induction l1 with
  | nil => simp [dlookup]
  | cons kv rest ih =>
    obtain ⟨k1, v1⟩ := kv
    by_cases h : k1 = k <;> simp [dlookup, h, ih]

theorem dlookup_mapUpdate {K V : Type} [DecidableEq K] (m o : List (K × V)) (k : K) :
    dlookup (m.map (fun kv =>
        match dlookup o kv.1 with | some v => (kv.1, v) | none => kv)) k
      = match dlookup m k with
        | none => none
        | some v0 => some ((dlookup o k).getD v0) := by
  induction m with
  | nil => simp [dlookup]
  | cons kv rest ih =>
    obtain ⟨k1, v1⟩ := kv
    by_cases h : k1 = k
    · subst h
      cases ho : dlookup o k1 <;> simp [dlookup, ho]
    · cases ho : dlookup o k1 <;> simp [dlookup, h, ho, ih]

theorem dlookup_filter_none {K V : Type} [DecidableEq K] (o : List (K × V))
    (p : K × V → Bool) (k : K) (h : dlookup o k = none) :
    dlookup (o.filter p) k = none := by
  induction o with
  | nil => simp [dlookup]
  | cons kv rest ih =>
    obtain ⟨k1, v1⟩ := kv
    by_cases hk : k1 = k
    · subst hk
      simp [dlookup] at h
    · have hrest : dlookup rest k = none := by simpa [dlookup, hk] using h
      rw [List.filter_cons]
      cases hp : p (k1, v1) <;> simp [dlookup, hk, ih hrest]

theorem dlookup_filter_keyTrue {K V : Type} [DecidableEq K] (o : List (K × V))
    (p : K × V → Bool) (k : K) (hall : ∀ v, p (k, v) = true) :
    dlookup (o.filter p) k = dlookup o k := by
  induction o with
  | nil => rfl
  | cons kv rest ih =>
    obtain ⟨k1, v1⟩ := kv
    by_cases hk : k1 = k
    · subst hk
      rw [List.filter_cons]
      simp [hall v1, dlookup]
    · rw [List.filter_cons]
      cases hp : p (k1, v1) <;> simp [dlookup, hk, ih]

theorem dlookup_dictUpdate {K V : Type} [DecidableEq K] (m o : List (K × V)) (k : K) :
    dlookup (dictUpdate m o) k = (dlookup o k).or (dlookup m k) := by
  unfold dictUpdate
  rw [dlookup_append, dlookup_mapUpdate]
  cases hm : dlookup m k with
  | some v0 => cases ho : dlookup o k <;> simp [ho]
  | none =>
    cases ho : dlookup o k with
    | none => simp [dlookup_filter_none o _ k ho]
    | some v =>
      rw [dlookup_filter_keyTrue o _ k (by intro v2 ; simp [dlookup, hm])]
      simp [ho]

/-! ### Claim C1 (merge precedence) -/

/-- C1 counterexample: the claim predicts that a symbol present under a
shared date in only one table keeps its price after `merge`.  With
`A = {d0: {X: 1, Y: 2}}` and `B = {d0: {X: 3}}`, the claim predicts
`(A.merge B)` maps `(d0, Y)` to `2`; the code's date-level `dict.update`
replaces the whole per-date mapping, so the merged table is exactly
`{d0: {X: 3}}` and the `(d0, Y)` entry is gone. -/
theorem c1_merge_counterexample :
    (AwardPrices.mk [((0 : ℤ), [("X", (1 : ℚ)), ("Y", 2)])]).merge
        (AwardPrices.mk [((0 : ℤ), [("X", (3 : ℚ))])])
      = AwardPrices.mk [((0 : ℤ), [("X", (3 : ℚ))])]
    ∧ (AwardPrices.mk [((0 : ℤ), [("X", (1 : ℚ)), ("Y", 2)])]).priceAt 0 "Y" = some 2
    ∧ ((AwardPrices.mk [((0 : ℤ), [("X", (1 : ℚ)), ("Y", 2)])]).merge
        (AwardPrices.mk [((0 : ℤ), [("X", (3 : ℚ))])])).priceAt 0 "Y" = none := by
  refine ⟨by decide, by decide, by decide⟩

/-- C1 (amended): `A.merge(B)` returns a table whose date set is the union
of the two date sets, with DATE-LEVEL precedence: for a date present in
`B`, the merged table carries `B`'s entire symbol-to-price mapping for that
date (symbols recorded under that date only in `A` are dropped); a date
absent from `B` keeps `A`'s mapping. -/
theorem c1_merge_date_level (A B : AwardPrices) (d : Date) :
    (∀ mB, dlookup B.award_prices d = some mB →
      dlookup (A.merge B).award_prices d = some mB)
    ∧ (dlookup B.award_prices d = none →
      dlookup (A.merge B).award_prices d = dlookup A.award_prices d)
    ∧ ((dlookup (A.merge B).award_prices d).isSome ↔
      (dlookup A.award_prices d).isSome ∨ (dlookup B.award_prices d).isSome) := by
  refine ⟨?_, ?_, ?_⟩
  · intro mB hB
    rw [AwardPrices.merge, dlookup_dictUpdate, hB]
    rfl
  · intro hB
    rw [AwardPrices.merge, dlookup_dictUpdate, hB]
    rfl
  · rw [AwardPrices.merge, dlookup_dictUpdate]
    cases hB : dlookup B.award_prices d <;>
      cases hA : dlookup A.award_prices d <;> simp

/-- C1 amended-claim witness at the counterexample tables: date `0` is
present in `B`, so the merged table carries `B`'s whole mapping for it. -/
theorem c1_merge_date_level_witness :
    dlookup ((AwardPrices.mk [((0 : ℤ), [("X", (1 : ℚ)), ("Y", 2)])]).merge
        (AwardPrices.mk [((0 : ℤ), [("X", (3 : ℚ))])])).award_prices 0
      = some [("X", (3 : ℚ))] :=
  (c1_merge_date_level
      (AwardPrices.mk [((0 : ℤ), [("X", (1 : ℚ)), ("Y", 2)])])
      (AwardPrices.mk [((0 : ℤ), [("X", (3 : ℚ))])]) 0).1
    [("X", (3 : ℚ))] (by decide)

/-! ### Claim C3 (backward search window) -/

/-- C3: `AwardPrices.get` first renames the symbol, then checks the dates
`date`, `date - 1`, ..., `date - 6` in that order and returns the first
date carrying an entry for the renamed symbol together with its price;
when all seven dates miss it fails with the `KeyError` lookup error. -/
theorem c3_resolve_window (renames : List (String × String)) (t : AwardPrices)
    (date : Date) (symbol : String) :
    (∀ i : ℤ, 0 ≤ i → i < 7 →
      (∀ j : ℤ, 0 ≤ j → j < i → t.priceAt (date - j) (renameGet renames symbol) = none) →
      ∀ p : ℚ, t.priceAt (date - i) (renameGet renames symbol) = some p →
      t.get renames date symbol = .ok (date - i, p))
    ∧ ((∀ i : ℤ, 0 ≤ i → i < 7 → t.priceAt (date - i) (renameGet renames symbol) = none) →
      t.get renames date symbol = .error (.keyError (renameGet renames symbol))) := by
  have e : List.range 7 = [0, 1, 2, 3, 4, 5, 6] := by decide
  constructor
  · intro i h0 h7 hbefore p hp
    have hb0 : 0 < i → t.priceAt date (renameGet renames symbol) = none := by
      intro hlt
      simpa using hbefore 0 le_rfl hlt
    unfold AwardPrices.get
    rw [e]
    interval_cases i <;> simp_all [List.findSome?]
  · intro hall
    have h00 : t.priceAt date (renameGet renames symbol) = none := by
      simpa using hall 0 (by norm_num) (by norm_num)
    unfold AwardPrices.get
    rw [e]
    simp [List.findSome?, h00, hall 1 (by norm_num) (by norm_num),
      hall 2 (by norm_num) (by norm_num), hall 3 (by norm_num) (by norm_num),
      hall 4 (by norm_num) (by norm_num), hall 5 (by norm_num) (by norm_num),
      hall 6 (by norm_num) (by norm_num)]

/-- C3 witness: with a table containing only `(2024-01-01, X) -> 10`,
resolving `(2024-01-05, X)` returns `(2024-01-01, 10)` (four days back) and
resolving `(2024-01-09, X)` fails with the lookup error. -/
theorem c3_resolve_window_witness :
    (AwardPrices.mk [(mkDate 2024 1 1, [("X", (10 : ℚ))])]).get [] (mkDate 2024 1 5) "X"
      = .ok (mkDate 2024 1 1, 10)
    ∧ (AwardPrices.mk [(mkDate 2024 1 1, [("X", (10 : ℚ))])]).get [] (mkDate 2024 1 9) "X"
      = .error (.keyError "X") := by
  constructor
  · have h := (c3_resolve_window [] (AwardPrices.mk [(mkDate 2024 1 1, [("X", (10 : ℚ))])])
      (mkDate 2024 1 5) "X").1 4 (by norm_num) (by norm_num)
      (by intro j h1 h2 ; interval_cases j <;> decide) 10 (by decide)
    have e4 : mkDate 2024 1 5 - (4 : ℤ) = mkDate 2024 1 1 := by decide
    rw [e4] at h
    exact h
  · exact (c3_resolve_window [] (AwardPrices.mk [(mkDate 2024 1 1, [("X", (10 : ℚ))])])
      (mkDate 2024 1 9) "X").2 (by intro i h1 h2 ; interval_cases i <;> decide)

/-! ### Except decomposition kit -/

@[simp] theorem except_throw_eq {ε α : Type} (er : ε) :
    (throw er : Except ε α) = .error er := rfl

@[simp] theorem except_pure_eq {ε α : Type} (a : α) :
    (pure a : Except ε α) = .ok a := rfl

@[simp] theorem except_ok_bind {ε α β : Type} (a : α) (f : α → Except ε β) :
    (Except.ok a : Except ε α) >>= f = f a := rfl

@[simp] theorem except_error_bind {ε α β : Type} (e : ε) (f : α → Except ε β) :
    (Except.error e : Except ε α) >>= f = .error e := rfl

@[simp] theorem except_bind_eq_ok {ε α β : Type} (e : Except ε α)
    (f : α → Except ε β) (b : β) :
    (e >>= f) = .ok b ↔ ∃ a, e = .ok a ∧ f a = .ok b := by
  cases e <;> simp [Bind.bind, Except.bind]

@[simp] theorem except_bind_eq_error {ε α β : Type} (e : Except ε α)
    (f : α → Except ε β) (er : ε) :
    (e >>= f) = .error er ↔ (e = .error er ∨ ∃ a, e = .ok a ∧ f a = .error er) := by
  cases e <;> simp [Bind.bind, Except.bind]

/-! ### Unifier step lemmas -/

theorem unifyStep_nonadj (acc : List SchwabTransaction) (t : SchwabTransaction)
    (ha : ¬(t.raw_action = "Cash Merger Adj")) :
    unifyStep acc t = .ok (t :: acc) := by
  unfold unifyStep
  rw [if_neg ha]

theorem unifyStep_adj_nil (t : SchwabTransaction)
    (ha : t.raw_action = "Cash Merger Adj") :
    unifyStep [] t = .error .assertionError := by
  unfold unifyStep
  rw [if_pos ha]

theorem unifyStep_adj_quantitySet (t h : SchwabTransaction)
    (rest2 : List SchwabTransaction) (ha : t.raw_action = "Cash Merger Adj")
    (hqne : h.quantity ≠ none) :
    unifyStep (h :: rest2) t = .error .assertionError := by
  unfold unifyStep
  rw [if_pos ha]
  cases hamt : h.amount with
  | none => simp [hamt]
  | some amt =>
    cases htq : t.quantity with
    | none => simp [hamt, htq]
    | some q => simp [hamt, htq, hqne]

theorem unifyStep_adj_noMatch (t h : SchwabTransaction)
    (rest2 : List SchwabTransaction) (ha : t.raw_action = "Cash Merger Adj")
    (hm : ¬CMMatches h t) :
    unifyStep (h :: rest2) t = .error .assertionError := by
  unfold unifyStep
  rw [if_pos ha]
  cases hamt : h.amount with
  | none => simp [hamt]
  | some amt =>
    cases htq : t.quantity with
    | none => simp [hamt, htq]
    | some q =>
      have hc : ¬(h.raw_action = "Cash Merger" ∧ h.description = t.description
          ∧ h.symbol = t.symbol ∧ h.date = t.date ∧ h.quantity = none
          ∧ h.price = none ∧ t.amount = none) := by
        intro hc
        exact hm ⟨hc.1, hc.2.1, hc.2.2.1, hc.2.2.2.1, hc.2.2.2.2.1,
          hc.2.2.2.2.2.1, by simp [hamt], hc.2.2.2.2.2.2, by simp [htq]⟩
      simp [hamt, htq, hc]

theorem unifyStep_adj_match (t h : SchwabTransaction)
    (rest2 : List SchwabTransaction) (amt q : ℚ)
    (ha : t.raw_action = "Cash Merger Adj") (hm : CMMatches h t)
    (hamt : h.amount = some amt) (htq : t.quantity = some q) :
    (q = 0 → unifyStep (h :: rest2) t = .error .divisionByZero)
    ∧ (q ≠ 0 → unifyStep (h :: rest2) t =
        .ok (
          { h with
              quantity := some (-1 * q),
              price := some (amt / (-1 * q)),
              fees := h.fees + t.fees } :: rest2)) := by
  obtain ⟨h1, h2, h3, h4, h5, h6, h7, h8, h9⟩ := hm
  constructor
  · intro h0
    subst h0
    unfold unifyStep
    rw [if_pos ha]
    simp [hamt, htq, h1, h2, h3, h4, h5, h6, h8]
  · intro h0
    have hne : ¬((-1 : ℚ) * q = 0) := by simpa using h0
    unfold unifyStep
    rw [if_pos ha]
    simp [hamt, htq, h1, h2, h3, h4, h5, h6, h8, hne, h0]

/-! ### Unifier driver lemmas -/

theorem unifyGo_cons_ok (t : SchwabTransaction)
    (rest acc acc2 : List SchwabTransaction)
    (h : unifyStep acc t = .ok acc2) :
    unifyGo (t :: rest) acc = unifyGo rest acc2 := by
  simp only [unifyGo, h]

theorem unifyGo_cons_error (t : SchwabTransaction)
    (rest acc : List SchwabTransaction) (e : PipelineError)
    (h : unifyStep acc t = .error e) :
    unifyGo (t :: rest) acc = .error e := by
  simp only [unifyGo, h]

theorem unifyGo_append_noAdj (ts : List SchwabTransaction) :
    ∀ (rest acc : List SchwabTransaction), noCMAdj ts = true →
    unifyGo (ts ++ rest) acc = unifyGo rest (ts.reverse ++ acc) := by
  induction ts with
  | nil => intro rest acc _ ; simp
  | cons t ts ih =>
    intro rest acc h
    simp only [noCMAdj, List.all_cons, Bool.and_eq_true] at h
    have ha : ¬(t.raw_action = "Cash Merger Adj") := by simpa using h.1
    have h2 : noCMAdj ts = true := h.2
    rw [List.cons_append,
      unifyGo_cons_ok t (ts ++ rest) acc (t :: acc) (unifyStep_nonadj acc t ha),
      ih rest (t :: acc) h2]
    simp

theorem unifyGo_final_noAdj (ts : List SchwabTransaction) :
    ∀ acc : List SchwabTransaction, noCMAdj ts = true →
    unifyGo ts acc = .ok (acc.reverse ++ ts) := by
  induction ts with
  | nil => intro acc _ ; simp [unifyGo]
  | cons t ts ih =>
    intro acc h
    simp only [noCMAdj, List.all_cons, Bool.and_eq_true] at h
    have ha : ¬(t.raw_action = "Cash Merger Adj") := by simpa using h.1
    rw [unifyGo_cons_ok t ts acc (t :: acc) (unifyStep_nonadj acc t ha),
      ih (t :: acc) h.2]
    simp

/-! ### Claim C4 (corporate-action folding) -/

/-- C4: in a raw sequence where a cash-merger adjustment row immediately
follows its matching primary and no other row is an adjustment row, the
unifier replaces the two rows by a single transaction whose quantity is the
negated adjustment quantity, whose price is `amount / (-q)`, and whose fees
are the primary's plus the adjustment's; every other transaction passes
through unmodified in order. -/
theorem c4_cash_merger_fold (pre post : List SchwabTransaction)
    (p a : SchwabTransaction) (amt q : ℚ)
    (hpre : noCMAdj pre = true) (hpost : noCMAdj post = true)
    (ha : a.raw_action = "Cash Merger Adj") (hm : CMMatches p a)
    (hamt : p.amount = some amt) (hq : a.quantity = some q) (hq0 : q ≠ 0) :
    unifySchwabCashMergerTrxs (pre ++ p :: a :: post)
      = .ok (pre ++
          { p with
              quantity := some (-1 * q),
              price := some (amt / (-1 * q)),
              fees := p.fees + a.fees } :: post) := by
  have hpn : ¬(p.raw_action = "Cash Merger Adj") := by
    rw [hm.1]
    decide
  unfold unifySchwabCashMergerTrxs
  rw [unifyGo_append_noAdj pre (p :: a :: post) [] hpre, List.append_nil,
    unifyGo_cons_ok p (a :: post) pre.reverse (p :: pre.reverse)
      (unifyStep_nonadj pre.reverse p hpn),
    unifyGo_cons_ok a post (p :: pre.reverse) _
      ((unifyStep_adj_match a p pre.reverse amt q ha hm hamt hq).2 hq0),
    unifyGo_final_noAdj post _ hpost]
  simp

/-- C4 witness: a primary with amount 1000 followed by an adjustment with
quantity -40 folds into one transaction with quantity 40 and price 25. -/
theorem c4_cash_merger_fold_witness :
    unifySchwabCashMergerTrxs [cmPrimarySample, cmAdjSample]
      = .ok [
          { cmPrimarySample with
              quantity := some (-1 * (-40)),
              price := some ((1000 : ℚ) / (-1 * (-40))),
              fees := cmPrimarySample.fees + cmAdjSample.fees }]
    ∧ (-1 : ℚ) * (-40) = 40 ∧ (1000 : ℚ) / (-1 * (-40)) = 25 := by
  refine ⟨?_, by norm_num, by norm_num⟩
  exact c4_cash_merger_fold [] [] cmPrimarySample cmAdjSample 1000 (-40)
    (by decide) (by decide) (by decide) (by decide) rfl rfl (by norm_num)

/-! ### Claim C8 (adjustment pairing safety) -/

theorem unifyGo_wf_characterization (ts : List SchwabTransaction) :
    ∀ (prev : Option SchwabTransaction) (acc : List SchwabTransaction),
    ((prev = none ∧ acc = [])
      ∨ (∃ p, prev = some p ∧ ¬(p.raw_action = "Cash Merger Adj") ∧ ∃ r2, acc = p :: r2)
      ∨ (∃ p, prev = some p ∧ p.raw_action = "Cash Merger Adj"
          ∧ ∃ h r2, acc = h :: r2 ∧ h.quantity ≠ none)) →
    ((∀ out, unifyGo ts acc = .ok out → wfFromB prev ts = true)
      ∧ (wfFromB prev ts = true → ∀ e, unifyGo ts acc = .error e → e = .divisionByZero)
      ∧ (wfFromB prev ts = false → noZeroAdjQty ts = true →
          unifyGo ts acc = .error .assertionError)) := by
  induction ts with
  | nil =>
    intro prev acc _
    refine ⟨fun out hout => rfl, fun _ e he => absurd he (by simp [unifyGo]), ?_⟩
    intro hwf
    simp [wfFromB] at hwf
  | cons t rest ih =>
    intro prev acc hinv
    by_cases ha : t.raw_action = "Cash Merger Adj"
    · rcases hinv with ⟨hp, hacc⟩ | ⟨p, hp, hpn, r2, hacc⟩ | ⟨p, hp, hpa, h, r2, hacc, hqne⟩
      · subst hp
        subst hacc
        have hstep := unifyStep_adj_nil t ha
        refine ⟨?_, ?_, ?_⟩
        · intro out hout
          rw [unifyGo_cons_error t rest [] _ hstep] at hout
          exact Except.noConfusion hout
        · intro hwf
          simp [wfFromB, ha] at hwf
        · intro _ _
          exact unifyGo_cons_error t rest [] _ hstep
      · subst hp
        subst hacc
        by_cases hm : CMMatches p t
        · obtain ⟨amt, hamt⟩ := Option.ne_none_iff_exists'.mp hm.2.2.2.2.2.2.1
          obtain ⟨q, htq⟩ := Option.ne_none_iff_exists'.mp hm.2.2.2.2.2.2.2.2
          have hsm := unifyStep_adj_match t p r2 amt q ha hm hamt htq
          by_cases hq0 : q = 0
          · have hdiv := hsm.1 hq0
            refine ⟨?_, ?_, ?_⟩
            · intro out hout
              rw [unifyGo_cons_error t rest (p :: r2) _ hdiv] at hout
              exact Except.noConfusion hout
            · intro _ e he
              rw [unifyGo_cons_error t rest (p :: r2) _ hdiv] at he
              exact (Except.error.inj he).symm
            · intro _ hnz
              exfalso
              subst hq0
              simp [noZeroAdjQty, ha, htq] at hnz
          · have hok := hsm.2 hq0
            have ihh := ih (some t)
              ({ p with
                  quantity := some (-1 * q),
                  price := some (amt / (-1 * q)),
                  fees := p.fees + t.fees } :: r2)
              (Or.inr (Or.inr ⟨t, rfl, ha, _, r2, rfl, by simp⟩))
            refine ⟨?_, ?_, ?_⟩
            · intro out hout
              rw [unifyGo_cons_ok t rest (p :: r2) _ hok] at hout
              have hwf2 := ihh.1 out hout
              simp [wfFromB, ha, hm, hwf2]
            · intro hwf e he
              rw [unifyGo_cons_ok t rest (p :: r2) _ hok] at he
              simp [wfFromB, ha, hm] at hwf
              exact ihh.2.1 hwf e he
            · intro hwf hnz
              rw [unifyGo_cons_ok t rest (p :: r2) _ hok]
              simp [wfFromB, ha, hm] at hwf
              simp only [noZeroAdjQty, List.all_cons, Bool.and_eq_true] at hnz
              exact ihh.2.2 hwf hnz.2
        · have hstep := unifyStep_adj_noMatch t p r2 ha hm
          refine ⟨?_, ?_, ?_⟩
          · intro out hout
            rw [unifyGo_cons_error t rest (p :: r2) _ hstep] at hout
            exact Except.noConfusion hout
          · intro hwf
            exfalso
            simp [wfFromB, ha, hm] at hwf
          · intro _ _
            exact unifyGo_cons_error t rest (p :: r2) _ hstep
      · subst hp
        subst hacc
        have hm : ¬CMMatches p t := by
          intro hc
          exact absurd (hpa.symm.trans hc.1) (by decide)
        have hstep := unifyStep_adj_quantitySet t h r2 ha hqne
        refine ⟨?_, ?_, ?_⟩
        · intro out hout
          rw [unifyGo_cons_error t rest (h :: r2) _ hstep] at hout
          exact Except.noConfusion hout
        · intro hwf
          exfalso
          simp [wfFromB, ha, hm] at hwf
        · intro _ _
          exact unifyGo_cons_error t rest (h :: r2) _ hstep
    · have hstep := unifyStep_nonadj acc t ha
      have ihh := ih (some t) (t :: acc)
        (Or.inr (Or.inl ⟨t, rfl, ha, acc, rfl⟩))
      refine ⟨?_, ?_, ?_⟩
      · intro out hout
        rw [unifyGo_cons_ok t rest acc (t :: acc) hstep] at hout
        have hwf2 := ihh.1 out hout
        simp [wfFromB, ha, hwf2]
      · intro hwf e he
        rw [unifyGo_cons_ok t rest acc (t :: acc) hstep] at he
        simp [wfFromB, ha] at hwf
        exact ihh.2.1 hwf e he
      · intro hwf hnz
        rw [unifyGo_cons_ok t rest acc (t :: acc) hstep]
        simp [wfFromB, ha] at hwf
        simp only [noZeroAdjQty, List.all_cons, Bool.and_eq_true] at hnz
        exact ihh.2.2 hwf hnz.2

/-- C8: the cash-merger pass produces output only on raw sequences in which
every adjustment row immediately follows a matching primary (same raw
action, description, symbol, date; primary without quantity or price but
with amount; adjustment without amount but with quantity).  On a sequence
violating that condition it fails before producing output — with the
assertion failure whenever no earlier zero-quantity adjustment turned the
failure into the division error — and under the precondition no assertion
fires: any failure can only be the division error. -/
theorem c8_adjustment_pairing (ts : List SchwabTransaction) :
    (∀ out, unifySchwabCashMergerTrxs ts = .ok out → cashMergerWellFormed ts = true)
    ∧ (cashMergerWellFormed ts = true →
        ∀ e, unifySchwabCashMergerTrxs ts = .error e → e = .divisionByZero)
    ∧ (cashMergerWellFormed ts = false → noZeroAdjQty ts = true →
        unifySchwabCashMergerTrxs ts = .error .assertionError) :=
  unifyGo_wf_characterization ts none [] (Or.inl ⟨rfl, rfl⟩)

/-- C8 witness: a lone adjustment row (empty buffer) fails with the
assertion failure, while the well-formed primary-adjustment pair never
fails with an assertion failure. -/
theorem c8_adjustment_pairing_witness :
    unifySchwabCashMergerTrxs [cmAdjSample] = .error .assertionError
    ∧ cashMergerWellFormed [cmPrimarySample, cmAdjSample] = true
    ∧ ¬(unifySchwabCashMergerTrxs [cmPrimarySample, cmAdjSample]
        = .error .assertionError) := by
  refine ⟨?_, by decide, ?_⟩
  · exact (c8_adjustment_pairing [cmAdjSample]).2.2 (by decide) (by decide)
  · intro hcontra
    have := (c8_adjustment_pairing [cmPrimarySample, cmAdjSample]).2.1
      (by decide) .assertionError hcontra
    exact absurd this (by decide)

/-! ### Claim C2 (deduplication drops only STOCK_ACTIVITY) -/

/-- Evaluation of the reconciler at the sample vest/sell pair sharing a
`(date, symbol)` key: the lower-precision SELL is dropped. -/
theorem reconcileSample_eval :
    readSchwabCombined [vestSample] [sellSample] = [vestSample] := by
  have h1 : readSchwabCombined [vestSample] [sellSample]
      = ([vestSample] ++ ([sellSample].filter (fun t =>
          decide ((t.date, t.symbol) ∉
            [vestSample].map (fun u => (u.date, u.symbol)))))).mergeSort dateLE := rfl
  have h2 : ([sellSample].filter (fun t =>
      decide ((t.date, t.symbol) ∉
        [vestSample].map (fun u => (u.date, u.symbol)))))
      = ([] : List SchwabTransaction) := by decide
  rw [h1, h2]
  simp

/-- C2 evaluation at the failing input: the higher-precision source holds a
vest at (2022-04-25, GOOG) and the lower-precision source holds a SELL
(not a STOCK_ACTIVITY) at the same `(date, symbol)` pair.  The reconciler
drops the SELL as well, because its filter tests only the `(date, symbol)`
pair and never the action kind — contradicting the source's own comment
and log message, which say only STOCK_ACTIVITY entries are to be
removed. -/
theorem c2_dedup_divergence :
    sellSample.action = ActionType.sell
    ∧ readSchwabCombined [vestSample] [sellSample] = [vestSample] :=
  ⟨rfl, reconcileSample_eval⟩

/-! ### Claim C9 (reconciliation frame property) -/

/-- C9: the multi-source reconciliation step never changes any field of any
transaction: every output transaction is (by record equality, hence
unchanged in date, action, symbol, description, quantity, price, fees and
amount) one of the input transactions, and when the higher-precision
source is non-empty the output is exactly a permutation of the
higher-precision transactions together with the surviving lower-precision
transactions — reconciliation only filters and reorders. -/
theorem c9_reconcile_no_mutation (equity ts : List SchwabTransaction) :
    (∀ t ∈ readSchwabCombined equity ts, t ∈ equity ∨ t ∈ ts)
    ∧ (equity ≠ [] →
        (readSchwabCombined equity ts).Perm
          (equity ++ ts.filter (fun t =>
            decide ((t.date, t.symbol) ∉ equity.map (fun u => (u.date, u.symbol)))))) := by
  constructor
  · intro t ht
    simp only [readSchwabCombined] at ht
    by_cases he : equity.isEmpty = true
    · rw [if_pos he] at ht
      exact Or.inr ht
    · rw [if_neg he] at ht
      rcases List.mem_append.mp (List.mem_mergeSort.mp ht) with h | h
      · exact Or.inl h
      · exact Or.inr (List.mem_of_mem_filter h)
  · intro hne
    have heb : ¬(equity.isEmpty = true) := by simpa [List.isEmpty_iff] using hne
    simp only [readSchwabCombined]
    rw [if_neg heb]
    exact List.mergeSort_perm _ _

/-- C9 witness: at the sample inputs, the vest in the reconciled output is
one of the input transactions. -/
theorem c9_reconcile_no_mutation_witness :
    vestSample ∈ [vestSample] ∨ vestSample ∈ [sellSample] :=
  (c9_reconcile_no_mutation [vestSample] [sellSample]).1 vestSample
    (by rw [reconcileSample_eval] ; exact List.mem_singleton_self _)

/-! ### Claim C5 (stable date ordering) -/

theorem dateLE_trans : ∀ a b c : SchwabTransaction,
    dateLE a b → dateLE b c → dateLE a c := by
  intro a b c hab hbc
  simp only [dateLE, decide_eq_true_eq] at hab hbc ⊢
  exact le_trans hab hbc

theorem dateLE_total : ∀ a b : SchwabTransaction, dateLE a b || dateLE b a := by
  intro a b
  simp only [dateLE]
  rcases le_total a.date b.date with h | h <;> simp [h]

/-- C5: with a non-empty higher-precision source, the reconciler's output
is sorted by date ascending, and the sort is stable: for every date `d`,
the subsequence of output transactions dated `d` equals (in order) the
subsequence of the concatenation "higher-precision transactions, then
filtered lower-precision transactions" dated `d`. -/
theorem c5_reconcile_sorted_stable (equity ts : List SchwabTransaction)
    (hne : equity ≠ []) :
    (readSchwabCombined equity ts).Pairwise (fun a b => a.date ≤ b.date)
    ∧ ∀ d : Date,
      (readSchwabCombined equity ts).filter (fun t => decide (t.date = d))
        = (equity ++ ts.filter (fun t =>
            decide ((t.date, t.symbol) ∉ equity.map (fun u => (u.date, u.symbol))))).filter
            (fun t => decide (t.date = d)) := by
  have heb : ¬(equity.isEmpty = true) := by simpa [List.isEmpty_iff] using hne
  constructor
  · simp only [readSchwabCombined]
    rw [if_neg heb]
    exact (List.sorted_mergeSort dateLE_trans dateLE_total _).imp
      (by intro a b h ; simpa [dateLE] using h)
  · intro d
    simp only [readSchwabCombined]
    rw [if_neg heb]
    have h1 : ∀ l : List SchwabTransaction,
        (l.filter (fun t => decide (t.date = d))).Pairwise
          (fun a b => dateLE a b = true) := by
      intro l
      apply List.pairwise_of_forall_mem_list
      intro a hba b hbb
      have hda : a.date = d := by simpa using List.of_mem_filter hba
      have hdb : b.date = d := by simpa using List.of_mem_filter hbb
      simp [dateLE, hda, hdb]
    generalize (equity ++ ts.filter (fun t =>
      decide ((t.date, t.symbol) ∉ equity.map (fun u => (u.date, u.symbol))))) = l
    have h2 := List.sublist_mergeSort dateLE_trans dateLE_total (h1 l)
      (List.filter_sublist l)
    have h3 := h2.filter (fun t => decide (t.date = d))
    rw [List.filter_filter] at h3
    have h4 : (l.filter (fun t => decide (t.date = d) && decide (t.date = d)))
        = l.filter (fun t => decide (t.date = d)) := by
      apply List.filter_congr
      intro a _
      exact Bool.and_self _
    rw [h4] at h3
    have h5 : (l.filter (fun t => decide (t.date = d))).Perm
        ((l.mergeSort dateLE).filter (fun t => decide (t.date = d))) :=
      ((List.mergeSort_perm l dateLE).symm).filter _
    exact (h3.eq_of_length h5.length_eq).symm

/-- C5 witness: sources with transaction dates [2022-06-10, 2022-04-25] and
[2022-10-25] reconcile to a date-sorted output whose equal-date runs match
the concatenation order. -/
theorem c5_reconcile_sorted_stable_witness :
    (readSchwabCombined [equityJunSample, equityAprSample]
      [lowerOctSample]).Pairwise (fun a b => a.date ≤ b.date)
    ∧ (readSchwabCombined [equityJunSample, equityAprSample]
        [lowerOctSample]).filter (fun t => decide (t.date = mkDate 2022 4 25))
      = ([equityJunSample, equityAprSample] ++ [lowerOctSample].filter (fun t =>
          decide ((t.date, t.symbol) ∉ [equityJunSample, equityAprSample].map
            (fun u => (u.date, u.symbol))))).filter
          (fun t => decide (t.date = mkDate 2022 4 25)) := by
  have h := c5_reconcile_sorted_stable [equityJunSample, equityAprSample]
    [lowerOctSample] (by simp)
  exact ⟨h.1, h.2 (mkDate 2022 4 25)⟩

/-! ### Claim C6 (quantity sign normalization) -/

theorem parseInvRow_quantity_abs (headers row : List String)
    (tx : BrokerTransaction) (h : parseInvRow headers row = .ok (some tx)) :
    ∃ v : ℚ, tx.quantity = some |v| := by
  simp only [parseInvRow, except_bind_eq_ok] at h
  obtain ⟨dateCell, -, h⟩ := h
  split at h
  case h_2 => simp at h
  simp only [except_pure_eq, except_ok_bind, except_bind_eq_ok] at h
  obtain ⟨name, -, h⟩ := h
  obtain ⟨details, -, h⟩ := h
  obtain ⟨costCell, -, h⟩ := h
  obtain ⟨amount, -, h⟩ := h
  split at h
  case isTrue => simp at h
  split at h
  · simp only [except_bind_eq_ok] at h
    obtain ⟨qty, -, h⟩ := h
    obtain ⟨priceCell, -, h⟩ := h
    obtain ⟨price, -, h⟩ := h
    split at h
    · simp only [except_pure_eq, Except.ok.injEq, Option.some.injEq] at h
      subst h
      exact ⟨qty, rfl⟩
    · split at h
      · simp only [except_pure_eq, Except.ok.injEq, Option.some.injEq] at h
        subst h
        exact ⟨qty, rfl⟩
      · simp at h
  · simp only [except_bind_eq_ok] at h
    obtain ⟨qCell, -, h⟩ := h
    obtain ⟨qty, -, h⟩ := h
    obtain ⟨priceCell, -, h⟩ := h
    obtain ⟨price, -, h⟩ := h
    split at h
    · simp only [except_pure_eq, Except.ok.injEq, Option.some.injEq] at h
      subst h
      exact ⟨qty, rfl⟩
    · split at h
      · simp only [except_pure_eq, Except.ok.injEq, Option.some.injEq] at h
        subst h
        exact ⟨qty, rfl⟩
      · simp at h

theorem parseInvestmentRows_nonneg (headers : List String) :
    ∀ (rows : List (List String)) (out : List BrokerTransaction),
    parseInvestmentRows headers rows = .ok out →
    ∀ t ∈ out, ∀ q : ℚ, t.quantity = some q → 0 ≤ q := by
  intro rows
  induction rows with
  | nil =>
    intro out h t ht q hq
    simp only [parseInvestmentRows, Except.ok.injEq] at h
    subst h
    exact absurd ht (List.not_mem_nil t)
  | cons row rest ih =>
    intro out h t ht q hq
    simp only [parseInvestmentRows] at h
    split at h
    case h_1 => exact Except.noConfusion h
    case h_2 =>
      split at h
      · have hout := Except.ok.inj h
        subst hout
        exact absurd ht (List.not_mem_nil t)
      · rw [except_bind_eq_ok] at h
        obtain ⟨tx?, htx, h⟩ := h
        rw [except_bind_eq_ok] at h
        obtain ⟨txs, htxs, h⟩ := h
        rw [except_pure_eq] at h
        have hout := Except.ok.inj h
        subst hout
        cases tx? with
        | none => exact ih txs htxs t ht q hq
        | some tx0 =>
          rcases List.mem_cons.mp ht with h1 | h1
          · subst h1
            obtain ⟨v, hv⟩ := parseInvRow_quantity_abs headers row t htx
            rw [hv] at hq
            rw [← Option.some.inj hq]
            exact abs_nonneg v
          · exact ih txs htxs t h1 q hq

theorem unifyStep_ok_nonneg (acc : List SchwabTransaction) (t : SchwabTransaction)
    (acc2 : List SchwabTransaction) (hstep : unifyStep acc t = .ok acc2)
    (hsign : quantitySignOK t = true)
    (hacc : ∀ u ∈ acc, ∀ q : ℚ, u.quantity = some q → 0 ≤ q) :
    ∀ u ∈ acc2, ∀ q : ℚ, u.quantity = some q → 0 ≤ q := by
  by_cases ha : t.raw_action = "Cash Merger Adj"
  · cases acc with
    | nil =>
      rw [unifyStep_adj_nil t ha] at hstep
      exact Except.noConfusion hstep
    | cons hh r2 =>
      by_cases hm : CMMatches hh t
      · obtain ⟨amt, hamt⟩ := Option.ne_none_iff_exists'.mp hm.2.2.2.2.2.2.1
        obtain ⟨q0, htq⟩ := Option.ne_none_iff_exists'.mp hm.2.2.2.2.2.2.2.2
        have hsm := unifyStep_adj_match t hh r2 amt q0 ha hm hamt htq
        by_cases hq0 : q0 = 0
        · rw [hsm.1 hq0] at hstep
          exact Except.noConfusion hstep
        · rw [hsm.2 hq0] at hstep
          have hacc2 := Except.ok.inj hstep
          subst hacc2
          have hq0le : q0 ≤ 0 := by
            simpa [quantitySignOK, htq, ha] using hsign
          intro u hu q hq
          rcases List.mem_cons.mp hu with h1 | h1
          · subst h1
            injection hq with hq2
            rw [← hq2, neg_one_mul]
            exact neg_nonneg.mpr hq0le
          · exact hacc u (List.mem_cons_of_mem _ h1) q hq
      · rw [unifyStep_adj_noMatch t hh r2 ha hm] at hstep
        exact Except.noConfusion hstep
  · rw [unifyStep_nonadj acc t ha] at hstep
    have hacc2 := Except.ok.inj hstep
    subst hacc2
    intro u hu q hq
    rcases List.mem_cons.mp hu with h1 | h1
    · subst h1
      simpa [quantitySignOK, hq, ha] using hsign
    · exact hacc u h1 q hq

theorem unifyGo_nonneg : ∀ (ts acc out : List SchwabTransaction),
    (∀ t ∈ ts, quantitySignOK t = true) →
    (∀ u ∈ acc, ∀ q : ℚ, u.quantity = some q → 0 ≤ q) →
    unifyGo ts acc = .ok out →
    ∀ u ∈ out, ∀ q : ℚ, u.quantity = some q → 0 ≤ q := by
  intro ts
  induction ts with
  | nil =>
    intro acc out _ hacc hout
    simp only [unifyGo, Except.ok.injEq] at hout
    subst hout
    intro u hu
    exact hacc u (List.mem_reverse.mp hu)
  | cons t rest ih =>
    intro acc out hsign hacc hout
    cases hstep : unifyStep acc t with
    | error e =>
      rw [unifyGo_cons_error t rest acc e hstep] at hout
      exact Except.noConfusion hout
    | ok acc2 =>
      rw [unifyGo_cons_ok t rest acc acc2 hstep] at hout
      exact ih acc2 out (fun u hu => hsign u (List.mem_cons_of_mem _ hu))
        (unifyStep_ok_nonneg acc t acc2 hstep (hsign t (List.mem_cons_self _ _)) hacc)
        hout

/-- C6 counterexample: Schwab parsing performs no sign normalization — a
raw Sell row whose Quantity cell is "-5" parses into a transaction whose
quantity is the negative value -5, violating the claimed invariant that
quantities are non-negative after normalization. -/
theorem c6_negative_quantity_counterexample :
    (SchwabTransaction.ofRow [] schwabSellRowSample "transactions.csv").map
      (fun t => (t.action, t.quantity)) = .ok (ActionType.sell, some (-5 : ℚ))
    ∧ (-5 : ℚ) < 0 := by
  refine ⟨by decide, by norm_num⟩

/-- C6 (amended): Vanguard buy/sell parsing always yields non-negative
quantities (it applies `abs`), but Schwab parsing preserves the sign of
the raw quantity cell; after cash-merger unification, quantities are
non-negative provided the raw Schwab data follows the export's sign
convention — non-negative quantity cells except on "Cash Merger Adj" rows,
whose quantities are non-positive. -/
theorem c6_quantity_sign (headers : List String) (rows : List (List String))
    (out : List BrokerTransaction) (ts outS : List SchwabTransaction) :
    (parseInvestmentRows headers rows = .ok out →
      ∀ t ∈ out, ∀ q : ℚ, t.quantity = some q → 0 ≤ q)
    ∧ ((∀ t ∈ ts, quantitySignOK t = true) →
      unifySchwabCashMergerTrxs ts = .ok outS →
      ∀ t ∈ outS, ∀ q : ℚ, t.quantity = some q → 0 ≤ q) := by
  constructor
  · intro h
    exact parseInvestmentRows_nonneg headers rows out h
  · intro hsign h
    exact unifyGo_nonneg ts [] outS hsign
      (fun u hu => absurd hu (List.not_mem_nil u)) h

/-- C6 amended-claim witness: the sample Vanguard sale parses with
quantity 2 and the sample Schwab sell survives unification, both with
non-negative quantities. -/
theorem c6_quantity_sign_witness :
    parseInvestmentRows vanHeadersSample [vanRowSample] = .ok [vanTxSample]
    ∧ vanTxSample.quantity = some 2
    ∧ unifySchwabCashMergerTrxs [sellSample] = .ok [sellSample]
    ∧ sellSample.quantity = some 10
    ∧ (0 : ℚ) ≤ 2 ∧ (0 : ℚ) ≤ 10 := by
  have hrows : parseInvestmentRows vanHeadersSample [vanRowSample]
      = .ok [vanTxSample] := by decide
  have hu : unifySchwabCashMergerTrxs [sellSample] = .ok [sellSample] := by decide
  refine ⟨hrows, by decide, hu, by decide, ?_, ?_⟩
  · exact (c6_quantity_sign vanHeadersSample [vanRowSample] [vanTxSample] [] []).1
      hrows vanTxSample (by simp) 2 (by decide)
  · exact (c6_quantity_sign vanHeadersSample [vanRowSample] [vanTxSample]
      [sellSample] [sellSample]).2 (by decide) hu sellSample (by simp) 10 (by decide)

/-! ### Claim C7 (award-row pairing and ingestion) -/

theorem combineCols_error (cols : List (String × String))
    (h : ∃ pr ∈ cols, pr.1 ≠ "" ∧ pr.2 ≠ "") :
    combineCols cols = .error .assertionError := by
  induction cols with
  | nil => simp at h
  | cons ul rest ih =>
    obtain ⟨u, l⟩ := ul
    obtain ⟨pr, hmem, hbad⟩ := h
    rcases List.mem_cons.mp hmem with h1 | h1
    · subst h1
      unfold combineCols
      rw [if_neg (by simpa using hbad)]
    · unfold combineCols
      by_cases hc : u = "" ∨ l = ""
      · rw [if_pos hc, ih ⟨pr, h1, hbad⟩]
        rfl
      · rw [if_neg hc]

/-- C7: award-file ingestion fails with the row-count error on every odd
data-row count; rows are paired positionally and, per paired column, a
simultaneous pair of non-empty cells is a fatal assertion failure; a
combined row whose symbol or price cell is empty contributes no table
entry; every other combined row contributes its (date, renamed symbol,
price) triple. -/
theorem c7_award_ingestion :
    (∀ (renames : List (String × String)) (headers : List String)
        (lines : List (List String)), lines.length % 2 = 1 →
      readSchwabAwards renames headers lines = .error .rowCountError)
    ∧ (∀ (renames : List (String × String)) (headers : List String)
        (acc : List (Date × List (String × ℚ))) (up low : List String),
      (∃ pr ∈ up.zip low, pr.1 ≠ "" ∧ pr.2 ≠ "") →
      processPair renames headers acc (up, low) = .error .assertionError)
    ∧ (∀ (renames : List (String × String)) (headers : List String)
        (acc : List (Date × List (String × ℚ))) (up low : List String)
        (row : List String) (ds : String) (d : Date) (sc pc : String),
      combineCols (up.zip low) = .ok row →
      row.length = headers.length →
      getCell (headers.zip row) "Date" = .ok ds →
      parseYMD ds = some d →
      getCell (headers.zip row) "Symbol" = .ok sc →
      getCell (headers.zip row) "FairMarketValuePrice" = .ok pc →
      (sc = "" ∨ pc = "") →
      (pc = "" ∨ ∃ p0 : ℚ, parseDecimal (pyReplace pc "$" "") = some p0) →
      processPair renames headers acc (up, low) = .ok acc)
    ∧ (∀ (renames : List (String × String)) (headers : List String)
        (acc : List (Date × List (String × ℚ))) (up low : List String)
        (row : List String) (ds : String) (d : Date) (sc pc : String) (p : ℚ),
      combineCols (up.zip low) = .ok row →
      row.length = headers.length →
      getCell (headers.zip row) "Date" = .ok ds →
      parseYMD ds = some d →
      getCell (headers.zip row) "Symbol" = .ok sc →
      sc ≠ "" →
      getCell (headers.zip row) "FairMarketValuePrice" = .ok pc →
      pc ≠ "" →
      parseDecimal (pyReplace pc "$" "") = some p →
      processPair renames headers acc (up, low) =
        .ok (dsetFirst acc d
          (dsetFirst ((dlookup acc d).getD []) (renameGet renames sc) p))) := by
  refine ⟨?_, ?_, ?_, ?_⟩
  · intro renames headers lines h
    unfold readSchwabAwards
    rw [if_pos (by omega)]
  · intro renames headers acc up low hex
    have hc := combineCols_error (up.zip low) hex
    simp [processPair, hc]
  · intro renames headers acc up low row ds d sc pc hcomb hlen hds hymd hsym hprc
      hempty hpp
    by_cases hsceq : sc = ""
    · rcases hpp with hpc0 | ⟨p0, hp0⟩
      · simp [processPair, hcomb, hlen, hds, hymd, hsym, hprc, hsceq, hpc0]
      · by_cases hpceq : pc = ""
        · simp [processPair, hcomb, hlen, hds, hymd, hsym, hprc, hsceq, hpceq]
        · simp [processPair, hcomb, hlen, hds, hymd, hsym, hprc, hsceq, hpceq, hp0]
    · have hpc0 : pc = "" := by
        rcases hempty with h1 | h1
        · exact absurd h1 hsceq
        · exact h1
      simp [processPair, hcomb, hlen, hds, hymd, hsym, hprc, hsceq, hpc0]
  · intro renames headers acc up low row ds d sc pc p hcomb hlen hds hymd hsym
      hsne hprc hpne hp
    simp [processPair, hcomb, hlen, hds, hymd, hsym, hsne, hprc, hpne, hp]

/-- C7 witness: an odd row count fails with the row-count error; a pair
with a doubly non-empty column is an assertion failure; a combined row
without a price contributes nothing; a complete combined row contributes
its (date, symbol, price) triple. -/
theorem c7_award_ingestion_witness :
    readSchwabAwards [] awardHeadersSample [["2024/01/01", "GOOG", "$10"]]
      = .error .rowCountError
    ∧ processPair [] awardHeadersSample [] (["a"], ["b"]) = .error .assertionError
    ∧ processPair [] awardHeadersSample []
        (["2024/01/01", "", ""], ["", "GOOG", ""]) = .ok []
    ∧ processPair [] awardHeadersSample []
        (["2024/01/01", "", ""], ["", "GOOG", "$10"])
      = .ok [(mkDate 2024 1 1, [("GOOG", (10 : ℚ))])] := by
  obtain ⟨h1, h2, h3, h4⟩ := c7_award_ingestion
  refine ⟨h1 [] awardHeadersSample [["2024/01/01", "GOOG", "$10"]] (by decide),
    h2 [] awardHeadersSample [] ["a"] ["b"] (by decide), ?_, ?_⟩
  · exact h3 [] awardHeadersSample [] ["2024/01/01", "", ""] ["", "GOOG", ""]
      ["2024/01/01", "GOOG", ""] "2024/01/01" (mkDate 2024 1 1) "GOOG" ""
      (by decide) (by decide) (by decide) (by decide) (by decide) (by decide)
      (Or.inr rfl) (Or.inl rfl)
  · exact h4 [] awardHeadersSample [] ["2024/01/01", "", ""] ["", "GOOG", "$10"]
      ["2024/01/01", "GOOG", "$10"] "2024/01/01" (mkDate 2024 1 1) "GOOG" "$10" 10
      (by decide) (by decide) (by decide) (by decide) (by decide) (by decide)
      (by decide) (by decide) (by decide)

/-! ### Claim C10 (as-of date parsing) -/

/-- C10: for a Schwab row whose Date cell contains " as of ", the
transaction's date is parsed from the portion of the cell after the first
occurrence of " as of " (that is `asOfDateStr`); for every other row the
whole cell is parsed (`asOfDateStr` is the identity there); in both cases
an unparseable date string fails with the parsing error naming the date
string and the row. -/
theorem c10_as_of_date (renames : List (String × String))
    (row : List (String × String)) (file : String) (dateCell : String)
    (hlen : ¬(row.length < 8 ∨ 9 < row.length))
    (hlast : ¬(row.length = 9 ∧ (row.map Prod.snd).getLast? ≠ some ""))
    (hcell : getCell row "Date" = .ok dateCell) :
    (∀ t, SchwabTransaction.ofRow renames row file = .ok t →
      ∀ d, parseMDY (asOfDateStr dateCell) = some d → t.date = d)
    ∧ (parseMDY (asOfDateStr dateCell) = none →
      SchwabTransaction.ofRow renames row file
        = .error (.invalidDate (asOfDateStr dateCell) row))
    ∧ (¬(pyContainsSub dateCell " as of " = true) →
      asOfDateStr dateCell = dateCell) := by
  refine ⟨?_, ?_, ?_⟩
  · intro t hok d hparse
    simp only [SchwabTransaction.ofRow] at hok
    rw [if_neg hlen] at hok
    simp only [except_pure_eq, except_ok_bind] at hok
    rw [if_neg hlast] at hok
    rw [hcell] at hok
    simp only [except_ok_bind] at hok
    rw [hparse] at hok
    simp only [except_pure_eq, except_ok_bind, except_bind_eq_ok] at hok
    obtain ⟨rawAction, -, hok⟩ := hok
    obtain ⟨action, -, hok⟩ := hok
    obtain ⟨descr, -, hok⟩ := hok
    obtain ⟨priceCell, -, hok⟩ := hok
    obtain ⟨price, -, hok⟩ := hok
    obtain ⟨qCell, -, hok⟩ := hok
    obtain ⟨qty, -, hok⟩ := hok
    obtain ⟨feesCell, -, hok⟩ := hok
    obtain ⟨fees, -, hok⟩ := hok
    obtain ⟨amountCell, -, hok⟩ := hok
    obtain ⟨amount, -, hok⟩ := hok
    obtain ⟨amountVal, -, hok⟩ := hok
    simp only [except_pure_eq, Except.ok.injEq] at hok
    subst hok
    rfl
  · intro hnone
    simp only [SchwabTransaction.ofRow]
    rw [if_neg hlen]
    simp only [except_pure_eq, except_ok_bind]
    rw [if_neg hlast]
    rw [hcell]
    simp only [except_ok_bind]
    rw [hnone]
    simp
  · intro hnc
    unfold asOfDateStr
    rw [if_neg hnc]

/-- C10 witness: a Date cell "05/15/2023 as of 05/12/2023" parses to the
as-of date 2023-05-12; an unparseable as-of remainder fails with the
parsing error carrying the extracted date string and the row; a cell
without " as of " is used whole. -/
theorem c10_as_of_date_witness :
    SchwabTransaction.ofRow [] asOfRowSample "f" = .ok asOfTxSample
    ∧ asOfTxSample.date = mkDate 2023 5 12
    ∧ SchwabTransaction.ofRow [] asOfBadRowSample "f"
      = .error (.invalidDate "garbage" asOfBadRowSample)
    ∧ asOfDateStr "01/02/2024" = "01/02/2024" := by
  have hok : SchwabTransaction.ofRow [] asOfRowSample "f" = .ok asOfTxSample := by
    decide
  refine ⟨hok, ?_, ?_, ?_⟩
  · exact (c10_as_of_date [] asOfRowSample "f" "05/15/2023 as of 05/12/2023"
      (by decide) (by decide) (by decide)).1 asOfTxSample hok
      (mkDate 2023 5 12) (by decide)
  · have h := (c10_as_of_date [] asOfBadRowSample "f" "05/15/2023 as of garbage"
      (by decide) (by decide) (by decide)).2.1 (by decide)
    have e : asOfDateStr "05/15/2023 as of garbage" = "garbage" := by decide
    rw [e] at h
    exact h
  · exact (c10_as_of_date [] schwabSellRowSample "f" "01/02/2024"
      (by decide) (by decide) (by decide)).2.2 (by decide)

end CGTCalc
